import Mathlib

/-!
Verification of the abortable_parser combinator library.

The Rust source is shallowly embedded: the four-state `Result` sum type and
the positional `Error` type are translated directly, cursors over byte input
are modelled by `StrIter` (a byte list plus offset/line/column, mirroring
`iter.rs`), and each combinator macro or function from `combinators.rs` is
translated to a Lean function of the cursor and sub-rule(s).  Loop-shaped
macros (`repeat!`, `until!`) are embedded with an explicit fuel argument;
the canonical fuel `source.length + 1 - offset` is always sufficient for
`until!` (its loop consumes one element per iteration) and sufficient for
`repeat!` whenever the sub-rule advances the cursor on Complete, which the
theorems assume explicitly.
-/

namespace AbortableParser

/-- Model of `StrIter` from iter.rs: a cursor over the bytes of a source
string, with offset, line and column tracking. The source is a list of
byte values. -/
structure StrIter where
  source : List Nat
  offset : Nat
  line : Nat
  column : Nat
  deriving DecidableEq

/-- `StrIter::new`: offset 0, line 1, column 1. -/
def StrIter.new (source : List Nat) : StrIter :=
  ⟨source, 0, 1, 1⟩

/-- `<StrIter as Iterator>::next`: yields the byte at the current offset and
the advanced cursor, bumping line/column (column resets to 1 and line
increments on a newline byte 10); `none` when input is exhausted. -/
def StrIter.next (s : StrIter) : Option (Nat × StrIter) :=
  match s.source.get? s.offset with
  | some b =>
    if b = 10 then
      some (b, ⟨s.source, s.offset + 1, s.line + 1, 1⟩)
    else
      some (b, ⟨s.source, s.offset + 1, s.line, s.column + 1⟩)
  | none => none

/-- `<StrIter as Span>::span` applied to `SpanRange::Range(a..b)`: the
sub-range `[a, b)` of the source. -/
def StrIter.span (s : StrIter) (a b : Nat) : List Nat :=
  (s.source.take b).drop a

/-- `<StrIter as Seekable>::seek`: clamps the target offset to the source
length, stores it, and returns the new offset.  Line and column are not
touched. -/
def StrIter.seek (s : StrIter) (t : Nat) : StrIter × Nat :=
  let self_len := s.source.length
  let offset := if self_len > t then t else self_len
  (⟨s.source, offset, s.line, s.column⟩, offset)

/-- The `Error<C>` type from lib.rs at context type `ι`: a message, an
optional cause, and a positional context (the cursor at the error). -/
inductive Err (ι : Type) : Type where
  | mk : String → Option (Err ι) → ι → Err ι

/-- `Error::get_msg`. -/
def Err.getMsg {ι : Type} : Err ι → String
  | .mk m _ _ => m

/-- `Error::get_cause`. -/
def Err.getCause {ι : Type} : Err ι → Option (Err ι)
  | .mk _ c _ => c

/-- `Error::get_context`. -/
def Err.getContext {ι : Type} : Err ι → ι
  | .mk _ _ x => x

/-- The four-state `Result<I, O>` type from lib.rs. -/
inductive Result (ι : Type) (O : Type) : Type where
  | Complete : ι → O → Result ι O
  | Incomplete : ι → Result ι O
  | Fail : Err ι → Result ι O
  | Abort : Err ι → Result ι O

/-- `Result::is_complete`. -/
def Result.is_complete {ι O : Type} : Result ι O → Bool
  | .Complete _ _ => true
  | _ => false

/-- `Result::is_incomplete`. -/
def Result.is_incomplete {ι O : Type} : Result ι O → Bool
  | .Incomplete _ => true
  | _ => false

/-- `Result::is_fail`. -/
def Result.is_fail {ι O : Type} : Result ι O → Bool
  | .Fail _ => true
  | _ => false

/-- `Result::is_abort`. -/
def Result.is_abort {ι O : Type} : Result ι O → Bool
  | .Abort _ => true
  | _ => false

/-- `fn not` from combinators.rs: inverts a result.  Note that in the
`Complete` arm the pattern variable shadows the entry cursor, so the new
error's context is the cursor the sub-rule advanced to. -/
def not {ι O : Type} (i : ι) (result : Result ι O) : Result ι Unit :=
  match result with
  | .Complete j _ => .Fail (Err.mk "Matched on input when we shouldn't have." none j)
  | .Abort e => .Abort e
  | .Incomplete ctx => .Incomplete ctx
  | .Fail _ => .Complete i ()

/-- `fn must` from combinators.rs: Fail becomes Abort, everything else is
untouched. -/
def must {ι O : Type} (result : Result ι O) : Result ι O :=
  match result with
  | .Complete i o => .Complete i o
  | .Incomplete ctx => .Incomplete ctx
  | .Fail e => .Abort e
  | .Abort e => .Abort e

/-- `fn trap` from combinators.rs: Abort becomes Fail, everything else is
untouched. -/
def trap {ι O : Type} (result : Result ι O) : Result ι O :=
  match result with
  | .Complete i o => .Complete i o
  | .Incomplete ctx => .Incomplete ctx
  | .Fail e => .Fail e
  | .Abort e => .Fail e

/-- `fn must_complete` from combinators.rs. -/
def must_complete {ι O : Type} (result : Result ι O) (msg : String) : Result ι O :=
  match result with
  | .Complete i o => .Complete i o
  | .Incomplete ctx => .Abort (Err.mk msg none ctx)
  | .Fail e => .Abort e
  | .Abort e => .Abort e

/-- `fn complete` from combinators.rs. -/
def complete {ι O : Type} (result : Result ι O) (msg : String) : Result ι O :=
  match result with
  | .Incomplete ctx => .Fail (Err.mk msg none ctx)
  | .Complete i o => .Complete i o
  | .Fail e => .Fail e
  | .Abort e => .Abort e

/-- `fn optional` from combinators.rs: Complete wraps in Some, Fail becomes
Complete at the supplied cursor with None, Incomplete and Abort are
untouched. -/
def optional {ι O : Type} (iter : ι) (result : Result ι O) : Result ι (Option O) :=
  match result with
  | .Complete i o => .Complete i (some o)
  | .Incomplete ctx => .Incomplete ctx
  | .Fail _ => .Complete iter none
  | .Abort e => .Abort e

/-- The `optional!` macro: clones the entry cursor and applies `optional`
to the sub-rule's result. -/
def optionalM {ι O : Type} (f : ι → Result ι O) (i : ι) : Result ι (Option O) :=
  optional i (f i)

/-- The `peek!` macro: runs the sub-rule on a clone; a Complete is rebuilt
on the original cursor, every other result is returned as produced. -/
def peekM {ι O : Type} (f : ι → Result ι O) (i : ι) : Result ι O :=
  match f i with
  | .Complete _ o => .Complete i o
  | .Incomplete ctx => .Incomplete ctx
  | .Abort e => .Abort e
  | .Fail e => .Fail e

/-- The `discard!` macro. -/
def discard {ι O : Type} (f : ι → Result ι O) (i : ι) : Result ι Unit :=
  match f i with
  | .Complete i2 _ => .Complete i2 ()
  | .Incomplete ctx => .Incomplete ctx
  | .Fail e => .Fail e
  | .Abort e => .Abort e

/-- The `either!` macro, written over a head rule and a list of further
alternatives.  Each alternative is run against the cursor alternation began
with (the macro clones `$i` before every attempt); the terminal clause
returns the last alternative's result as produced. -/
def either {ι O : Type} (i : ι) (f : ι → Result ι O) :
    List (ι → Result ι O) → Result ι O
  | [] =>
    match f i with
    | .Complete i2 o => .Complete i2 o
    | .Incomplete ctx => .Incomplete ctx
    | .Fail e => .Fail e
    | .Abort e => .Abort e
  | g :: rest =>
    match f i with
    | .Complete i2 o => .Complete i2 o
    | .Incomplete ctx => .Incomplete ctx
    | .Fail _ => either i g rest
    | .Abort e => .Abort e

/-- The byte-consuming loop inside the `text_token!` macro: walk the
expected bytes, consuming one input element per expected byte (stopping
when input is exhausted) and counting the positions that matched. -/
def textTokenLoop (cur : StrIter) (count : Nat) : List Nat → StrIter × Nat
  | [] => (cur, count)
  | expected :: rest =>
    match cur.next with
    | none => (cur, count)
    | some (item, cur2) =>
      textTokenLoop cur2 (if item = expected then count + 1 else count) rest

/-- Renders a byte list as the text it spells, for the `text_token!` error
message (`format!("Expected {} but didn't get it.", $e)`). -/
def bytesToString (e : List Nat) : String :=
  String.mk (e.map Char.ofNat)

/-- The `text_token!` macro: Complete with the literal and the advanced
cursor when every expected byte matched; otherwise Fail with the error
positioned at the original cursor. -/
def text_token (e : List Nat) (i : StrIter) : Result StrIter (List Nat) :=
  let r := textTokenLoop i 0 e
  if r.2 = e.length then .Complete r.1 e
  else .Fail (Err.mk ("Expected " ++ bytesToString e ++ " but didn't get it.") none i)

/-- `(*b as char).is_whitespace()` restricted to byte values: the
White_Space code points below U+0100 are 9-13, 32, 133 and 160. -/
def byteIsWhitespace (b : Nat) : Bool :=
  b = 9 || b = 10 || b = 11 || b = 12 || b = 13 || b = 32 || b = 133 || b = 160

/-- `(*b as char).is_ascii_digit()`. -/
def byteIsAsciiDigit (b : Nat) : Bool :=
  48 ≤ b && b ≤ 57

/-- `(*b as char).is_ascii_alphabetic()`. -/
def byteIsAsciiAlpha (b : Nat) : Bool :=
  (65 ≤ b && b ≤ 90) || (97 ≤ b && b ≤ 122)

/-- `fn ascii_ws` from combinators.rs: consume one byte; Complete with it
when it is whitespace, Fail otherwise (the error context is the cursor
after the consume attempt); exhausted input is also Fail, at the
unadvanced cursor. -/
def ascii_ws (i : StrIter) : Result StrIter Nat :=
  match i.next with
  | some (b, i2) =>
    if byteIsWhitespace b then .Complete i2 b
    else .Fail (Err.mk "Not whitespace" none i2)
  | none => .Fail (Err.mk "Unexpected End Of Input" none i)

/-- `fn ascii_digit` from combinators.rs. -/
def ascii_digit (i : StrIter) : Result StrIter Nat :=
  match i.next with
  | some (b, i2) =>
    if byteIsAsciiDigit b then .Complete i2 b
    else .Fail (Err.mk "Not an digit character" none i2)
  | none => .Fail (Err.mk "Unexpected End Of Input." none i)

/-- `fn ascii_alpha` from combinators.rs. -/
def ascii_alpha (i : StrIter) : Result StrIter Nat :=
  match i.next with
  | some (b, i2) =>
    if byteIsAsciiAlpha b then .Complete i2 b
    else .Fail (Err.mk "Not an alpha character" none i2)
  | none => .Fail (Err.mk "Unexpected End Of Input." none i)

/-- `fn ascii_alphanumeric` from combinators.rs. -/
def ascii_alphanumeric (i : StrIter) : Result StrIter Nat :=
  match i.next with
  | some (b, i2) =>
    if byteIsAsciiAlpha b || byteIsAsciiDigit b then .Complete i2 b
    else .Fail (Err.mk "Not an alphanumeric character" none i2)
  | none => .Fail (Err.mk "Unexpected End Of Input." none i)

/-- `fn eoi` from combinators.rs: Complete at the unconsumed cursor when
the next consume attempt yields nothing, Fail otherwise. -/
def eoi (i : StrIter) : Result StrIter Unit :=
  match i.next with
  | some _ => .Fail (Err.mk "Expected End Of Input" none i)
  | none => .Complete i ()

/-- The loop inside the `until!` macro, with explicit fuel.  `entry` is the
iterator `until!` was entered with (used for the span); `cur` is the
scanning cursor.  Each iteration checks the terminator at `cur`: on its
Complete the span from the entry offset up to `cur` is returned with the
cursor still at the terminator; Abort and Incomplete are returned as
produced; on Fail one element is consumed and the loop retries, and
exhausted input yields Incomplete.  The fuel-zero branch is never reached
when the fuel is at least `source.length + 1 - cur.offset`, because every
retry consumes one element. -/
def untilRec {O : Type} (term : StrIter → Result StrIter O) (entry : StrIter) :
    Nat → StrIter → Result StrIter (List Nat)
  | 0, cur => .Incomplete cur
  | fuel + 1, cur =>
    match term cur with
    | .Complete _ _ => .Complete cur (entry.span entry.offset cur.offset)
    | .Abort e => .Abort e
    | .Incomplete ctx => .Incomplete ctx
    | .Fail _ =>
      match cur.next with
      | none => .Incomplete cur
      | some (_, c2) => untilRec term entry fuel c2

/-- The `until!` macro, with the always-sufficient canonical fuel. -/
def untilM {O : Type} (term : StrIter → Result StrIter O) (i : StrIter) :
    Result StrIter (List Nat) :=
  untilRec term i (i.source.length + 1 - i.offset) i

/-- The `until!` loop resumed at scanning cursor `cur` (with its own
canonical fuel); `untilM term i = untilGo term i i`. -/
def untilGo {O : Type} (term : StrIter → Result StrIter O) (entry cur : StrIter) :
    Result StrIter (List Nat) :=
  untilRec term entry (cur.source.length + 1 - cur.offset) cur

/-- The loop inside the `repeat!` macro, with explicit fuel.  Each
iteration runs the sub-rule at the working cursor: Complete appends the
value and advances; Abort is returned as produced; Fail and Incomplete end
the loop, returning Complete with the accumulated values at the cursor
from just before the failed attempt.  The fuel-zero branch is never
reached when the sub-rule strictly advances the cursor on Complete and the
fuel is at least `source.length + 1 - cur.offset`. -/
def repeatRec {O : Type} (f : StrIter → Result StrIter O) :
    Nat → List O → StrIter → Result StrIter (List O)
  | 0, _, cur => .Incomplete cur
  | fuel + 1, seq, cur =>
    match f cur with
    | .Complete i2 o => repeatRec f fuel (seq ++ [o]) i2
    | .Abort e => .Abort e
    | .Incomplete _ => .Complete cur seq
    | .Fail _ => .Complete cur seq

/-- The `repeat!` macro, with the canonical fuel. -/
def repeatM {O : Type} (f : StrIter → Result StrIter O) (i : StrIter) :
    Result StrIter (List O) :=
  repeatRec f (i.source.length + 1 - i.offset) [] i

/-- Prepends `acc` to the value of a Complete result and leaves every other
result untouched; used to relate `repeat!` runs that differ in the
already-accumulated list. -/
def appendAcc {ι O : Type} (acc : List O) : Result ι (List O) → Result ι (List O)
  | .Complete i vs => .Complete i (acc ++ vs)
  | .Incomplete ctx => .Incomplete ctx
  | .Fail e => .Fail e
  | .Abort e => .Abort e

/-- The `do_each!(_ => sep, item => item, (item))` sequence used for the
tail of `separated!`: run the separator, discard its value, then run the
item rule from the advanced cursor; the first non-Complete step is the
whole sequence's result. -/
def seqPair {O1 O2 : Type} (sep : StrIter → Result StrIter O1)
    (item : StrIter → Result StrIter O2) (i : StrIter) : Result StrIter O2 :=
  match sep i with
  | .Complete i2 _ =>
    match item i2 with
    | .Complete i3 v => .Complete i3 v
    | .Incomplete ctx => .Incomplete ctx
    | .Fail e => .Fail e
    | .Abort e => .Abort e
  | .Incomplete ctx => .Incomplete ctx
  | .Fail e => .Fail e
  | .Abort e => .Abort e

/-- The `separated!` macro: require one item, then repeat
(separator, item) pairs, prepending the head item to the repeated tail. -/
def separated {O1 O2 : Type} (sep : StrIter → Result StrIter O1)
    (item : StrIter → Result StrIter O2) (i : StrIter) : Result StrIter (List O2) :=
  match item i with
  | .Incomplete ctx => .Incomplete ctx
  | .Fail e => .Fail e
  | .Abort e => .Abort e
  | .Complete i2 v =>
    match repeatM (seqPair sep item) i2 with
    | .Fail e => .Fail e
    | .Incomplete ctx => .Incomplete ctx
    | .Abort e => .Abort e
    | .Complete i3 tail => .Complete i3 (v :: tail)

/-! ## Helper lemmas -/

theorem StrIter.next_some {s t : StrIter} {b : Nat} (h : s.next = some (b, t)) :
    t.source = s.source ∧ t.offset = s.offset + 1 ∧ s.offset < s.source.length := by
  unfold StrIter.next at h
  split at h
  next c hg =>
    have hlt : s.offset < s.source.length := by
      by_contra hge
      rw [List.get?_eq_none.mpr (Nat.le_of_not_lt hge)] at hg
      exact Option.noConfusion hg
    split at h <;> simp only [Option.some.injEq, Prod.mk.injEq] at h <;>
      obtain ⟨hb, ht⟩ := h <;> rw [← ht] <;> exact ⟨rfl, rfl, hlt⟩
  next hg => exact Option.noConfusion h

/-- The last alternative in an `either!` invocation, written over the same
head-and-rest shape as `either`. -/
def lastAlt {α : Type} (f : α) : List α → α
  | [] => f
  | g :: rest => lastAlt g rest

/-- The terminal clause of `either!` returns the last alternative's result
exactly as produced. -/
theorem either_terminal {ι O : Type} (i : ι) (f : ι → Result ι O) :
    either i f [] = f i := by
  unfold either
  cases f i <;> rfl

/-- A result is a Fail exactly when it equals `Fail e` for some error. -/
theorem is_fail_iff {ι O : Type} (r : Result ι O) :
    r.is_fail = true ↔ ∃ e, r = .Fail e := by
  cases r <;> simp [Result.is_fail]

/-! ## Claim theorems -/

/-- C9: `seek(t)` on a `StrIter` sets the offset to the minimum of `t` and
the source length and returns that new offset, leaving the source, line and
column fields exactly as they were (line and column are not recomputed). -/
theorem seek_spec (s : StrIter) (t : Nat) :
    s.seek t = (⟨s.source, min t s.source.length, s.line, s.column⟩,
      min t s.source.length) := by
  unfold StrIter.seek
  dsimp only
  by_cases h : s.source.length > t
  · rw [if_pos h, Nat.min_eq_left (Nat.le_of_lt h)]
  · rw [if_neg h, Nat.min_eq_right (Nat.le_of_not_lt h)]

/-- C2 counterexample: the claim positions the Complete-to-Fail error at the
entry cursor.  Running `not` the way the `not!` macro does, over the entry
cursor at offset 0 with a sub-rule that matched one byte, yields a Fail
error whose context is the advanced cursor at offset 1, not the entry
cursor. -/
theorem not_position_counterexample :
    not (StrIter.new [97, 98]) (trap (text_token [97] (StrIter.new [97, 98])))
      = .Fail (Err.mk "Matched on input when we shouldn't have." none
          ⟨[97, 98], 1, 1, 2⟩) ∧
    (StrIter.new [97, 98]).offset = 0 :=
  ⟨rfl, rfl⟩

/-- C2 (amended): `not` maps Fail to Complete(entry cursor, unit), maps
Complete to a Fail whose new error is positioned at the cursor the sub-rule
advanced to (not the entry cursor), and passes Incomplete and Abort through
unchanged. -/
theorem not_spec {ι O : Type} (i : ι) (r : Result ι O) :
    (∀ e, r = .Fail e → not i r = .Complete i ()) ∧
    (∀ j v, r = .Complete j v →
      not i r = .Fail (Err.mk "Matched on input when we shouldn't have." none j)) ∧
    (∀ c, r = .Incomplete c → not i r = .Incomplete c) ∧
    (∀ e, r = .Abort e → not i r = .Abort e) := by
  refine ⟨?_, ?_, ?_, ?_⟩
  · intro e h; rw [h]; rfl
  · intro j v h; rw [h]; rfl
  · intro c h; rw [h]; rfl
  · intro e h; rw [h]; rfl

/-- Witness for the amended C2 theorem at concrete inputs: a failed
sub-rule inverts to Complete at the entry cursor, and a completed sub-rule
inverts to a Fail positioned at the sub-rule's advanced cursor. -/
theorem not_spec_witness :
    not (StrIter.new [98]) (text_token [97] (StrIter.new [98]))
      = .Complete (StrIter.new [98]) () ∧
    not (StrIter.new [97]) (text_token [97] (StrIter.new [97]))
      = .Fail (Err.mk "Matched on input when we shouldn't have." none
          ⟨[97], 1, 1, 2⟩) :=
  ⟨(not_spec (StrIter.new [98]) (text_token [97] (StrIter.new [98]))).1
      (Err.mk ("Expected " ++ bytesToString [97] ++ " but didn't get it.") none
        (StrIter.new [98])) rfl,
    (not_spec (StrIter.new [97]) (text_token [97] (StrIter.new [97]))).2.1
      ⟨[97], 1, 1, 2⟩ [97] rfl⟩

/-- C3 evaluation at the failing input: `ascii_digit` over the one-byte
input "a" (byte 97) starting at offset 0 consumes the byte and returns a
Fail whose error is positioned at offset 1, while the claim (and the spec's
explicit mandate) requires the original offset 0. -/
theorem ascii_digit_position_eval :
    ascii_digit (StrIter.new [97])
      = .Fail (Err.mk "Not an digit character" none ⟨[97], 1, 1, 2⟩) ∧
    (StrIter.new [97]).offset = 0 :=
  ⟨rfl, rfl⟩

/-- C4 counterexample: the claim requires every cursor carried in an
Incomplete result of `peek!` to have the entry cursor's consumed count.
With the sub-rule `until!(text_token!(";"))` over "abc", `peek!` returns
Incomplete carrying a cursor at offset 3 while the entry cursor is at
offset 0. -/
theorem peek_position_counterexample :
    peekM (untilM (text_token [59])) (StrIter.new [97, 98, 99])
      = .Incomplete ⟨[97, 98, 99], 3, 1, 4⟩ ∧
    (StrIter.new [97, 98, 99]).offset = 0 :=
  ⟨rfl, rfl⟩

/-- C4 (amended): `peek!` on a Complete sub-rule result discards the
advanced cursor and returns Complete with the original cursor and the
sub-rule's value, so it never consumes on success; Incomplete, Fail and
Abort results pass through exactly as the sub-rule produced them (so the
cursors they carry are the sub-rule's own and may be advanced past the
entry cursor). -/
theorem peek_spec {ι O : Type} (f : ι → Result ι O) (i : ι) :
    (∀ j v, f i = .Complete j v → peekM f i = .Complete i v) ∧
    (∀ c, f i = .Incomplete c → peekM f i = .Incomplete c) ∧
    (∀ e, f i = .Fail e → peekM f i = .Fail e) ∧
    (∀ e, f i = .Abort e → peekM f i = .Abort e) := by
  refine ⟨?_, ?_, ?_, ?_⟩
  · intro j v h; unfold peekM; rw [h]
  · intro c h; unfold peekM; rw [h]
  · intro e h; unfold peekM; rw [h]
  · intro e h; unfold peekM; rw [h]

/-- Witness for the amended C4 theorem at concrete inputs: a completed
sub-rule peeks to Complete at the entry cursor, and an Incomplete sub-rule
result passes through with its own (advanced) cursor. -/
theorem peek_spec_witness :
    peekM (text_token [97]) (StrIter.new [97, 98])
      = .Complete (StrIter.new [97, 98]) [97] ∧
    peekM (untilM (text_token [59])) (StrIter.new [97, 98, 99])
      = .Incomplete ⟨[97, 98, 99], 3, 1, 4⟩ :=
  ⟨(peek_spec (text_token [97]) (StrIter.new [97, 98])).1
      ⟨[97, 98], 1, 1, 2⟩ [97] rfl,
    (peek_spec (untilM (text_token [59])) (StrIter.new [97, 98, 99])).2.1
      ⟨[97, 98, 99], 3, 1, 4⟩ rfl⟩

/-- C5: `optional!` never returns Fail: a Complete(i, v) sub-rule result
becomes Complete(i, some v), a Fail becomes Complete at the entry cursor
with none, and Incomplete and Abort propagate unchanged. -/
theorem optional_spec {ι O : Type} (f : ι → Result ι O) (i : ι) :
    (optionalM f i).is_fail = false ∧
    (∀ j v, f i = .Complete j v → optionalM f i = .Complete j (some v)) ∧
    (∀ e, f i = .Fail e → optionalM f i = .Complete i none) ∧
    (∀ c, f i = .Incomplete c → optionalM f i = .Incomplete c) ∧
    (∀ e, f i = .Abort e → optionalM f i = .Abort e) := by
  refine ⟨?_, ?_, ?_, ?_, ?_⟩
  · unfold optionalM optional
    cases f i <;> rfl
  · intro j v h; unfold optionalM; rw [h]; rfl
  · intro e h; unfold optionalM; rw [h]; rfl
  · intro c h; unfold optionalM; rw [h]; rfl
  · intro e h; unfold optionalM; rw [h]; rfl

/-- Witness for C5 at concrete inputs: a matching sub-rule yields
Complete(advanced, some value) and a failing sub-rule yields
Complete(entry, none). -/
theorem optional_spec_witness :
    optionalM (text_token [97]) (StrIter.new [97, 98])
      = .Complete ⟨[97, 98], 1, 1, 2⟩ (some [97]) ∧
    optionalM (text_token [98]) (StrIter.new [97, 98])
      = .Complete (StrIter.new [97, 98]) none :=
  ⟨(optional_spec (text_token [97]) (StrIter.new [97, 98])).2.1
      ⟨[97, 98], 1, 1, 2⟩ [97] rfl,
    (optional_spec (text_token [98]) (StrIter.new [97, 98])).2.2.1
      (Err.mk ("Expected " ++ bytesToString [98] ++ " but didn't get it.") none
        (StrIter.new [97, 98])) rfl⟩

/-- C1: for two or more alternatives, `either!` returns the first Complete
or Incomplete produced; when the head alternative Fails the remaining
alternatives are evaluated against the cursor alternation began with (so a
failed alternative's partial consumption is invisible to later
alternatives); and when the head alternative Aborts that Abort is returned
immediately, whatever the later alternatives (even matching ones) would
do. -/
theorem either_spec {ι O : Type} (i : ι) (f g : ι → Result ι O)
    (rest : List (ι → Result ι O)) :
    (∀ j v, f i = .Complete j v → either i f (g :: rest) = .Complete j v) ∧
    (∀ c, f i = .Incomplete c → either i f (g :: rest) = .Incomplete c) ∧
    (∀ e, f i = .Fail e → either i f (g :: rest) = either i g rest) ∧
    (∀ e, f i = .Abort e → either i f (g :: rest) = .Abort e) := by
  refine ⟨?_, ?_, ?_, ?_⟩
  · intro j v h; simp only [either, h]
  · intro c h; simp only [either, h]
  · intro e h; simp only [either, h]
  · intro e h; simp only [either, h]

/-- Witness for C1 at concrete inputs: a failing head alternative hands the
original cursor to the rest, a completing head is returned, and an aborting
head is returned immediately even though the later alternative would have
matched. -/
theorem either_spec_witness :
    either (StrIter.new [98]) (text_token [97]) [text_token [98]]
      = either (StrIter.new [98]) (text_token [98]) [] ∧
    either (StrIter.new [97]) (text_token [97]) [text_token [98]]
      = .Complete ⟨[97], 1, 1, 2⟩ [97] ∧
    either (StrIter.new [98]) (fun j => must (text_token [97] j)) [text_token [98]]
      = .Abort (Err.mk ("Expected " ++ bytesToString [97] ++ " but didn't get it.")
          none (StrIter.new [98])) :=
  ⟨(either_spec (StrIter.new [98]) (text_token [97]) (text_token [98]) []).2.2.1
      (Err.mk ("Expected " ++ bytesToString [97] ++ " but didn't get it.") none
        (StrIter.new [98])) rfl,
    (either_spec (StrIter.new [97]) (text_token [97]) (text_token [98]) []).1
      ⟨[97], 1, 1, 2⟩ [97] rfl,
    (either_spec (StrIter.new [98]) (fun j => must (text_token [97] j))
        (text_token [98]) []).2.2.2
      (Err.mk ("Expected " ++ bytesToString [97] ++ " but didn't get it.") none
        (StrIter.new [98])) rfl⟩

/-- C10: when every alternative of `either!` Fails at the entry cursor, the
Fail handed to the caller is exactly the one the last alternative produced
(the errors of the earlier alternatives are dropped, not recorded as
causes). -/
theorem either_last_fail_spec {ι O : Type} (i : ι) (f : ι → Result ι O)
    (rest : List (ι → Result ι O))
    (hall : ∀ r ∈ f :: rest, (r i).is_fail = true) :
    either i f rest = (lastAlt f rest) i := by
  induction rest generalizing f with
  | nil =>
    rw [either_terminal]; rfl
  | cons g rest ih =>
    obtain ⟨e, he⟩ := (is_fail_iff (f i)).mp (hall f (List.mem_cons_self f _))
    have hstep : either i f (g :: rest) = either i g rest := by
      simp only [either, he]
    rw [hstep, ih g (fun r hr => hall r (List.mem_cons_of_mem f hr))]
    rfl

/-- Witness for C10 at concrete inputs: with two alternatives that both
Fail over the input "x", alternation returns exactly the second (last)
alternative's result. -/
theorem either_last_fail_spec_witness :
    either (StrIter.new [120]) (text_token [97]) [text_token [98]]
      = text_token [98] (StrIter.new [120]) := by
  have h := either_last_fail_spec (StrIter.new [120]) (text_token [97])
    [text_token [98]] (by
      intro r hr
      rcases List.mem_cons.mp hr with h1 | h1
      · rw [h1]; rfl
      · rcases List.mem_cons.mp h1 with h2 | h2
        · rw [h2]; rfl
        · exact absurd h2 (List.not_mem_nil r))
  rw [h]
  rfl

/-- C8: scan-until.  `until!` resumed at any in-range scanning cursor
returns, when the terminator matches there, Complete carrying the span of
everything between the entry offset and the scanning cursor with the
returned cursor exactly at the terminator (not consumed); a terminator
Abort propagates immediately; on a terminator Fail one element is consumed
and the scan retries, and exhausting the input yields Incomplete.
Concretely, over "abc;" with terminator ";" it returns Complete with
content "abc" (bytes 97, 98, 99) and a cursor at offset 3, and over "abc"
it returns Incomplete. -/
theorem until_spec {O : Type} (term : StrIter → Result StrIter O)
    (i entry cur : StrIter) :
    (untilM term i = untilGo term i i) ∧
    (cur.offset ≤ cur.source.length →
      (∀ j v, term cur = .Complete j v →
        untilGo term entry cur = .Complete cur (entry.span entry.offset cur.offset)) ∧
      (∀ e, term cur = .Abort e → untilGo term entry cur = .Abort e) ∧
      (∀ c, term cur = .Incomplete c → untilGo term entry cur = .Incomplete c) ∧
      (∀ e, term cur = .Fail e → cur.next = none →
        untilGo term entry cur = .Incomplete cur)) ∧
    (∀ e b c2, term cur = .Fail e → cur.next = some (b, c2) →
      untilGo term entry cur = untilGo term entry c2) ∧
    (untilM (text_token [59]) (StrIter.new [97, 98, 99, 59])
      = .Complete ⟨[97, 98, 99, 59], 3, 1, 4⟩ [97, 98, 99]) ∧
    (untilM (text_token [59]) (StrIter.new [97, 98, 99])
      = .Incomplete ⟨[97, 98, 99], 3, 1, 4⟩) := by
  refine ⟨rfl, ?_, ?_, rfl, rfl⟩
  · intro hle
    have hfuel : cur.source.length + 1 - cur.offset
        = (cur.source.length - cur.offset) + 1 := by omega
    refine ⟨?_, ?_, ?_, ?_⟩
    · intro j v h
      unfold untilGo
      rw [hfuel]
      simp only [untilRec, h]
    · intro e h
      unfold untilGo
      rw [hfuel]
      simp only [untilRec, h]
    · intro c h
      unfold untilGo
      rw [hfuel]
      simp only [untilRec, h]
    · intro e h hn
      unfold untilGo
      rw [hfuel]
      simp only [untilRec, h, hn]
  · intro e b c2 h hn
    obtain ⟨hs, ho, hlt⟩ := StrIter.next_some hn
    have hfuel : cur.source.length + 1 - cur.offset
        = (cur.source.length - cur.offset) + 1 := by omega
    have hfuel2 : c2.source.length + 1 - c2.offset
        = cur.source.length - cur.offset := by
      rw [hs, ho]; omega
    unfold untilGo
    rw [hfuel, hfuel2]
    simp only [untilRec, h, hn]

/-- Witness for C8 at concrete inputs: the in-range hypotheses are
discharged at the scanning cursor for "abc;" at offset 3 (terminator
matches there) and at offset 0 (terminator fails, one byte is consumed). -/
theorem until_spec_witness :
    untilGo (text_token [59]) (StrIter.new [97, 98, 99, 59])
        ⟨[97, 98, 99, 59], 3, 1, 4⟩
      = .Complete ⟨[97, 98, 99, 59], 3, 1, 4⟩
          ((StrIter.new [97, 98, 99, 59]).span 0 3) ∧
    untilGo (text_token [59]) (StrIter.new [97, 98, 99, 59])
        (StrIter.new [97, 98, 99, 59])
      = untilGo (text_token [59]) (StrIter.new [97, 98, 99, 59])
          ⟨[97, 98, 99, 59], 1, 1, 2⟩ :=
  ⟨((until_spec (text_token [59]) (StrIter.new [97, 98, 99, 59])
      (StrIter.new [97, 98, 99, 59]) ⟨[97, 98, 99, 59], 3, 1, 4⟩).2.1
      (by decide)).1 ⟨[97, 98, 99, 59], 4, 1, 5⟩ [59] rfl,
    (until_spec (text_token [59]) (StrIter.new [97, 98, 99, 59])
      (StrIter.new [97, 98, 99, 59]) (StrIter.new [97, 98, 99, 59])).2.2.1
      (Err.mk ("Expected " ++ bytesToString [59] ++ " but didn't get it.") none
        (StrIter.new [97, 98, 99, 59]))
      97 ⟨[97, 98, 99, 59], 1, 1, 2⟩ rfl rfl⟩

/-- A `repeat!` run with accumulator `acc` is the run with an empty
accumulator, with `acc` prepended to a Complete value. -/
theorem repeatRec_acc {O : Type} (f : StrIter → Result StrIter O) (fuel : Nat) :
    ∀ (acc : List O) (cur : StrIter),
      repeatRec f fuel acc cur = appendAcc acc (repeatRec f fuel [] cur) := by
  induction fuel with
  | zero => intro acc cur; rfl
  | succ n ih =>
    intro acc cur
    cases hf : f cur with
    | Complete i2 o =>
      simp only [repeatRec, hf, List.nil_append]
      rw [ih (acc ++ [o]) i2, ih [o] i2]
      cases repeatRec f n [] i2 <;> simp [appendAcc, List.append_assoc]
    | Abort e => simp [repeatRec, hf, appendAcc]
    | Incomplete c => simp [repeatRec, hf, appendAcc]
    | Fail e => simp [repeatRec, hf, appendAcc]

/-- When the sub-rule strictly advances an in-range cursor on every
Complete, any two sufficient fuels give the same `repeat!` run. -/
theorem repeatRec_fuel {O : Type} (f : StrIter → Result StrIter O)
    (hsrc : ∀ j j2 o, f j = .Complete j2 o →
      j2.source = j.source ∧ j.offset < j2.offset ∧ j2.offset ≤ j.source.length) :
    ∀ (fuel fuel2 : Nat) (acc : List O) (cur : StrIter),
      cur.source.length - cur.offset < fuel →
      cur.source.length - cur.offset < fuel2 →
      repeatRec f fuel acc cur = repeatRec f fuel2 acc cur := by
  intro fuel
  induction fuel with
  | zero => intro fuel2 acc cur h _; exact absurd h (Nat.not_lt_zero _)
  | succ n ih =>
    intro fuel2 acc cur h h2
    cases fuel2 with
    | zero => exact absurd h2 (Nat.not_lt_zero _)
    | succ m =>
      cases hf : f cur with
      | Complete i2 o =>
        obtain ⟨hs, hlt, hle⟩ := hsrc cur i2 o hf
        simp only [repeatRec, hf]
        apply ih
        · rw [hs]; omega
        · rw [hs]; omega
      | Abort e => simp [repeatRec, hf]
      | Incomplete c => simp [repeatRec, hf]
      | Fail e => simp [repeatRec, hf]

/-- With sufficient fuel and a sub-rule that strictly advances in-range
cursors on Complete, a `repeat!` run either returns Complete at a cursor
that is not behind the starting one, or returns an Abort that the sub-rule
produced at some reachable cursor. -/
theorem repeatRec_characterization {O : Type} (f : StrIter → Result StrIter O)
    (hsrc : ∀ j j2 o, f j = .Complete j2 o →
      j2.source = j.source ∧ j.offset < j2.offset ∧ j2.offset ≤ j.source.length) :
    ∀ (fuel : Nat) (acc : List O) (cur : StrIter),
      cur.source.length - cur.offset < fuel →
      (∃ i2 vs, repeatRec f fuel acc cur = .Complete i2 vs ∧ cur.offset ≤ i2.offset) ∨
      (∃ j e, cur.offset ≤ j.offset ∧ f j = .Abort e ∧
        repeatRec f fuel acc cur = .Abort e) := by
  intro fuel
  induction fuel with
  | zero => intro acc cur h; exact absurd h (Nat.not_lt_zero _)
  | succ n ih =>
    intro acc cur h
    cases hf : f cur with
    | Complete i2 o =>
      obtain ⟨hs, hlt, hle⟩ := hsrc cur i2 o hf
      have hb : i2.source.length - i2.offset < n := by rw [hs]; omega
      rcases ih (acc ++ [o]) i2 hb with ⟨i3, vs, heq, hge⟩ | ⟨j, e, hge, hab, heq⟩
      · exact Or.inl ⟨i3, vs, by simp only [repeatRec, hf]; exact heq, by omega⟩
      · exact Or.inr ⟨j, e, by omega, hab, by simp only [repeatRec, hf]; exact heq⟩
    | Abort e =>
      exact Or.inr ⟨cur, e, Nat.le_refl _, hf, by simp [repeatRec, hf]⟩
    | Incomplete c =>
      exact Or.inl ⟨cur, acc, by simp [repeatRec, hf], Nat.le_refl _⟩
    | Fail e =>
      exact Or.inl ⟨cur, acc, by simp [repeatRec, hf], Nat.le_refl _⟩

/-- C6: repetition.  For a sub-rule that strictly advances in-range cursors
on Complete (a repeat! sub-rule that completes without consuming loops
forever in the source, which the spec rules out by construction), starting
in range: `repeat!` returns Complete at a cursor with consumed count at
least the entry's unless some iteration of the sub-rule Aborts from a
reachable position, in which case that Abort is returned; a first-attempt
Fail or Incomplete ends the run as Complete with the empty sequence at the
entry cursor (zero matches is success, rewound to just before the failed
attempt); an immediate Abort is returned as produced; and a Complete
prepends its value, in order, to the run continued from the advanced
cursor. -/
theorem repeat_spec {O : Type} (f : StrIter → Result StrIter O) (i : StrIter)
    (hsrc : ∀ j j2 o, f j = .Complete j2 o →
      j2.source = j.source ∧ j.offset < j2.offset ∧ j2.offset ≤ j.source.length)
    (hoff : i.offset ≤ i.source.length) :
    ((∃ i2 vs, repeatM f i = .Complete i2 vs ∧ i.offset ≤ i2.offset) ∨
      (∃ j e, i.offset ≤ j.offset ∧ f j = .Abort e ∧ repeatM f i = .Abort e)) ∧
    (∀ e, f i = .Fail e → repeatM f i = .Complete i []) ∧
    (∀ c, f i = .Incomplete c → repeatM f i = .Complete i []) ∧
    (∀ e, f i = .Abort e → repeatM f i = .Abort e) ∧
    (∀ i2 v, f i = .Complete i2 v → repeatM f i = appendAcc [v] (repeatM f i2)) := by
  have hfuel : i.source.length + 1 - i.offset
      = (i.source.length - i.offset) + 1 := by omega
  refine ⟨?_, ?_, ?_, ?_, ?_⟩
  · exact repeatRec_characterization f hsrc _ [] i (by omega)
  · intro e h
    unfold repeatM
    rw [hfuel]
    simp only [repeatRec, h]
  · intro c h
    unfold repeatM
    rw [hfuel]
    simp only [repeatRec, h]
  · intro e h
    unfold repeatM
    rw [hfuel]
    simp only [repeatRec, h]
  · intro i2 v h
    obtain ⟨hs, hlt, hle⟩ := hsrc i i2 v h
    unfold repeatM
    rw [hfuel]
    simp only [repeatRec, h, List.nil_append]
    rw [repeatRec_acc f _ [v] i2]
    congr 1
    apply repeatRec_fuel f hsrc
    · rw [hs]; omega
    · rw [hs]; omega

/-- `ascii_alpha` strictly advances in-range cursors on Complete: it
consumes exactly one byte. -/
theorem ascii_alpha_progress :
    ∀ j j2 o, ascii_alpha j = .Complete j2 o →
      j2.source = j.source ∧ j.offset < j2.offset ∧ j2.offset ≤ j.source.length := by
  intro j j2 o h
  unfold ascii_alpha at h
  cases hn : j.next with
  | none => rw [hn] at h; exact Result.noConfusion h
  | some p =>
    obtain ⟨b, t⟩ := p
    obtain ⟨hs, ho, hlt⟩ := StrIter.next_some hn
    rw [hn] at h
    by_cases hb : byteIsAsciiAlpha b
    · simp only [hb, if_true] at h
      obtain ⟨ht, -⟩ := Result.Complete.inj h
      rw [← ht, hs, ho]
      exact ⟨rfl, Nat.lt_succ_self _, hlt⟩
    · simp only [hb, if_false] at h
      exact Result.noConfusion h

/-- Witness for C6 at concrete inputs: over the input "1" the first
attempt of `ascii_alpha` Fails and repetition completes with the empty
sequence at the entry cursor; over "ab" the first Complete prepends its
value to the continued run. -/
theorem repeat_spec_witness :
    repeatM ascii_alpha (StrIter.new [49]) = .Complete (StrIter.new [49]) [] ∧
    repeatM ascii_alpha (StrIter.new [97, 98])
      = appendAcc [97] (repeatM ascii_alpha ⟨[97, 98], 1, 1, 2⟩) :=
  ⟨(repeat_spec ascii_alpha (StrIter.new [49]) ascii_alpha_progress
      (by decide)).2.1
      (Err.mk "Not an alpha character" none ⟨[49], 1, 1, 2⟩) rfl,
    (repeat_spec ascii_alpha (StrIter.new [97, 98]) ascii_alpha_progress
      (by decide)).2.2.2.2 ⟨[97, 98], 1, 1, 2⟩ 97 rfl⟩

/-- C7: the separated-list combinator with item rule `text_token!("a")` and
separator rule `text_token!(",")`: over the empty input it returns Fail;
over "a" it returns Complete with a one-element sequence; over "a,a,a" it
returns Complete with a three-element sequence; and over "a,a,a," it
returns Complete with three elements and a cursor at offset 5, exactly
before the trailing separator, which is left unconsumed. -/
theorem separated_spec :
    (separated (text_token [44]) (text_token [97]) (StrIter.new [])).is_fail
      = true ∧
    separated (text_token [44]) (text_token [97]) (StrIter.new [97])
      = .Complete ⟨[97], 1, 1, 2⟩ [[97]] ∧
    separated (text_token [44]) (text_token [97])
        (StrIter.new [97, 44, 97, 44, 97])
      = .Complete ⟨[97, 44, 97, 44, 97], 5, 1, 6⟩ [[97], [97], [97]] ∧
    separated (text_token [44]) (text_token [97])
        (StrIter.new [97, 44, 97, 44, 97, 44])
      = .Complete ⟨[97, 44, 97, 44, 97, 44], 5, 1, 6⟩ [[97], [97], [97]] :=
  ⟨rfl, rfl, rfl, rfl⟩

end AbortableParser
